import Mathlib

/-!
Verification of the bsvalias capability-discovery client: a shallow
embedding of the DNS-over-HTTPS SRV resolver (`DohSrvResolver` in
`bsvalias-sfp-client/src/index.ts` / `doh-srv-resolver.ts`) and of the
capability resolver (`bsvalias-core/src/capability-resolver.ts`),
together with theorems about record parsing, RFC 2782 ordering, the
withdrawal rule, the trust policy and the error taxonomy.

Modelling conventions:
* JavaScript numbers appearing in records are modelled as `Int`
  (`parseInt` can produce negative values); DNS status codes and record
  types are `Nat`.
* The source of randomness (`Math.random`) is modelled as an injected
  stream of draws (`List Int`); each multi-record selection round
  consumes one element of the stream, reduced into `[0, total)` exactly
  as `Math.floor(Math.random() * total)` lands in `[0, total)` for a
  positive total (and is `0` for total `0`; negative totals cannot arise
  for well-formed SRV weights).
* Thrown exceptions are modelled with `Except`; the JavaScript `null`
  results of `locateServices` are modelled with `Option`.
* String manipulation is carried out on the underlying character lists
  so that every definition evaluates by kernel reduction.
-/

namespace BsvAlias

/-- `Question` entry of a DoH JSON response (`QueryQuestion` in the source). -/
structure QueryQuestion where
  name : String
  type : Nat
deriving DecidableEq, Repr

/-- `Answer` entry of a DoH JSON response (`ResourceRecordAnswer` in the source). -/
structure ResourceRecordAnswer where
  name : String
  type : Nat
  TTL : Nat
  data : String
deriving DecidableEq, Repr

/-- Parsed SRV resource record (`SrvRecord` in the source). -/
structure SrvRecord where
  name : String
  TTL : Nat
  priority : Int
  weight : Int
  port : Int
  target : String
deriving DecidableEq, Repr

/-- DoH JSON query response (`QueryResponse` in the source).  `Question`
is `Option`al: `none` models an absent / non-array field, and `Answer`
likewise. -/
structure QueryResponse where
  Status : Nat
  AD : Bool
  Question : Option (List QueryQuestion)
  Answer : Option (List ResourceRecordAnswer)
deriving DecidableEq, Repr

/-- One resolved endpoint (`DomainService` in `srv-resolver.ts`). -/
structure DomainService where
  host : String
  port : Int
deriving DecidableEq, Repr

/-- Result of `SrvResolver.locateServices` (`SrvResolverResponse`). -/
structure SrvResolverResponse where
  services : List DomainService
  isDomainSecure : Bool
deriving DecidableEq, Repr

/-- `ErrorCodes.NOERROR` in the source. -/
def NOERROR : Nat := 0

/-- `ErrorCodes.NXDOMAIN` in the source. -/
def NXDOMAIN : Nat := 3

/-- `RecordTypes.SRV` in the source. -/
def SRV : Nat := 33

/-- Split a character list at every occurrence of `sep`, keeping empty
segments, exactly as JavaScript `String.prototype.split` with a
single-character separator: `"".split(" ") = [""]`,
`"a  b".split(" ") = ["a", "", "b"]`. -/
def splitOnChar (sep : Char) : List Char → List (List Char)
  | [] => [[]]
  | c :: rest =>
      let r := splitOnChar sep rest
      if c = sep then [] :: r
      else (c :: r.headD []) :: r.tail

/-- Numeric value of a list of decimal digit characters. -/
def digitsToNat (l : List Char) : Nat :=
  l.foldl (fun acc c => acc * 10 + (c.toNat - 48)) 0

/-- JavaScript `parseInt(s, 10)`: skip leading whitespace, read an
optional sign, then the maximal prefix of decimal digits; `NaN`
(modelled as `none`) when no digit is found. -/
def parseIntJs (chars : List Char) : Option Int :=
  let t := chars.dropWhile (fun c => c.isWhitespace)
  let signRest : Int × List Char :=
    match t with
    | '-' :: r => (-1, r)
    | '+' :: r => (1, r)
    | r => (1, r)
  let digits := signRest.2.takeWhile (fun c => c.isDigit)
  if digits.isEmpty then none
  else some (signRest.1 * (digitsToNat digits : Int))

/-- Strip a single trailing dot, if present.  This is at once the
regular expression `/^(.*?)\.?$/` capture of `deserialiseSrvAnswer`
(the lazy group captures everything except one optional final dot) and
the `replace(/\.$/, "")` normalization of
`CapabilityResolver.domainsAreEqual`. -/
def stripTrailingDot (s : String) : String :=
  if s.data.getLast? = some '.' then ⟨s.data.dropLast⟩ else s

/-- JavaScript line terminators: `.` in a regular expression matches
any character except these, and `$` without the `m` flag asserts only
the true end of input. -/
def isLineTerminator (c : Char) : Bool :=
  c == '\n' || c == '\r' || c == '\u2028' || c == '\u2029'

/-- `DohSrvResolver.deserialiseSrvAnswer`: the `data` field must be
exactly four space-separated tokens `priority weight port target`, the
three numeric tokens must `parseInt` to numbers, and the target is run
through `/^(.*?)\.?$/`.  That anchored match succeeds exactly when the
token minus one optional trailing dot is free of line terminators
(`.*?` cannot cross one and `$` matches only the end of input), in
which case the lazy group captures the token with one trailing dot
stripped; otherwise `exec` returns `null` and the source throws the
invalid-target error.  An empty capture is replaced by the sentinel
`"."`. -/
def deserialiseSrvAnswer (answer : ResourceRecordAnswer) : Except String SrvRecord :=
  let dataElements : List (List Char) := splitOnChar ' ' answer.data.data
  if dataElements.length ≠ 4 then .error "Invalid answer"
  else
    match parseIntJs (dataElements.getD 0 []) with
    | none => .error "Invalid priority: value could not be converted to a number"
    | some priority =>
    match parseIntJs (dataElements.getD 1 []) with
    | none => .error "Invalid weight: value could not be converted to a number"
    | some weight =>
    match parseIntJs (dataElements.getD 2 []) with
    | none => .error "Invalid port: value could not be converted to a number"
    | some port =>
      let target := stripTrailingDot ⟨dataElements.getD 3 []⟩
      if target.data.any isLineTerminator then
        .error "Invalid target domain name found"
      else
        .ok { name := answer.name, TTL := answer.TTL, priority := priority,
              weight := weight, port := port,
              target := if target = "" then "." else target }

/-- The `.map(answer => this.deserialiseSrvAnswer(answer))` of the
source: deserialise left to right, propagating the first thrown error. -/
def deserialiseAll : List ResourceRecordAnswer → Except String (List SrvRecord)
  | [] => .ok []
  | a :: rest =>
      match deserialiseSrvAnswer a with
      | .error e => .error e
      | .ok r =>
          match deserialiseAll rest with
          | .error e => .error e
          | .ok rs => .ok (r :: rs)

/-- The selection scan of `orderResourceListByWeight`: walk the
remaining records accumulating the running weight sum; the first record
whose running sum is `>=` the draw is selected, every other record is
kept in order (the `newRecordsToProcess` partition of the source). -/
def selectByDraw (d : Int) (acc : Int) :
    List SrvRecord → Option SrvRecord × List SrvRecord
  | [] => (none, [])
  | r :: rest =>
      if d ≤ acc + r.weight then (some r, rest)
      else
        let res := selectByDraw d (acc + r.weight) rest
        (res.1, r :: res.2)

/-- The `while` loop of `orderResourceListByWeight`, with an explicit
iteration bound: every pass emits and removes exactly one record, so
the loop runs at most `length` passes.  A sole remaining record is
emitted without consuming a draw; otherwise one draw is consumed,
reduced into `[0, total)` (the range of
`Math.floor(Math.random() * total)` for positive `total`).  The `none`
branch of the selection is unreachable for the non-negative weights of
well-formed SRV records (the source would crash there, dereferencing a
`null` record). -/
def orderResourceListByWeightAux :
    Nat → List SrvRecord → List Int → List DomainService × List Int
  | _, [], draws => ([], draws)
  | _, [r], draws => ([{ host := r.target, port := r.port }], draws)
  | 0, _ :: _ :: _, draws => ([], draws)
  | fuel + 1, r1 :: r2 :: rest, draws =>
      let recordsToProcess := r1 :: r2 :: rest
      let sumAccumulator := (recordsToProcess.map (fun r => r.weight)).sum
      let randomNumber : Int :=
        if 0 < sumAccumulator then (draws.headD 0) % sumAccumulator else 0
      let sk := selectByDraw randomNumber 0 recordsToProcess
      match sk.1 with
      | some nextSrvRecord =>
          let res := orderResourceListByWeightAux fuel sk.2 draws.tail
          ({ host := nextSrvRecord.target, port := nextSrvRecord.port } :: res.1,
           res.2)
      | none => ([], draws.tail)

/-- `DohSrvResolver.orderResourceListByWeight`, returning the ordered
services together with the unconsumed tail of the draw stream. -/
def orderResourceListByWeight (recordsToOrder : List SrvRecord)
    (draws : List Int) : List DomainService × List Int :=
  orderResourceListByWeightAux recordsToOrder.length recordsToOrder draws

/-- The `forEach` of `locateServices` that batches the priority-sorted
records into equal-priority runs, flushing each completed run through
`orderResourceListByWeight` (followed by the final "process last
record" flush). -/
def locateLoop :
    List SrvRecord → Int → List SrvRecord → List DomainService → List Int →
      List DomainService × List Int
  | [], _prev, recordsToProcess, acc, draws =>
      let res := orderResourceListByWeight recordsToProcess draws
      (acc ++ res.1, res.2)
  | r :: rest, prev, recordsToProcess, acc, draws =>
      if r.priority ≠ prev then
        let res := orderResourceListByWeight recordsToProcess draws
        locateLoop rest r.priority [r] (acc ++ res.1) res.2
      else
        locateLoop rest prev (recordsToProcess ++ [r]) acc draws

/-- The `.sort((a, b) => a.priority - b.priority)` of the source.
JavaScript `Array.prototype.sort` is required to be stable, and with
this comparator it sorts ascending by `priority`; the model uses
insertion sort, which is stable and sorts ascending by `priority`. -/
def sortByPriority (records : List SrvRecord) : List SrvRecord :=
  records.insertionSort (fun a b => a.priority ≤ b.priority)

instance : IsTotal SrvRecord (fun a b => a.priority ≤ b.priority) :=
  ⟨fun a b => Int.le_total a.priority b.priority⟩

instance : IsTrans SrvRecord (fun a b => a.priority ≤ b.priority) :=
  ⟨fun _ _ _ h1 h2 => le_trans h1 h2⟩

/-- Sentinel filtering, priority sort and per-band weighted ordering of
`locateServices` (steps after the withdrawal check). -/
def orderRecords (srvRecords : List SrvRecord) (draws : List Int) :
    List DomainService × List Int :=
  let sortedSrvRecords := sortByPriority (srvRecords.filter (fun r => r.target != "."))
  match sortedSrvRecords with
  | [] => ([], draws)
  | r :: rest => locateLoop rest r.priority [r] [] draws

/-- The tail of `locateServices` after deserialisation: the RFC 2782
withdrawal rule (`null` exactly when precisely one record has the
sentinel target `"."`), then sentinel filtering, priority sorting and
weighted ordering. -/
def processSrvRecords (srvRecords : List SrvRecord) (draws : List Int)
    (ad : Bool) : Except String (Option SrvResolverResponse) :=
  let serviceNotSupportedRecords := srvRecords.filter (fun r => r.target == ".")
  if serviceNotSupportedRecords.length = 1 then .ok none
  else
    let res := orderRecords srvRecords draws
    .ok (some { services := res.1, isDomainSecure := ad })

/-- The query name `_{service}._{protocol}.{domainName}` built by
`locateServices`. -/
def mkQueryName (service protocol domainName : String) : String :=
  "_" ++ service ++ "._" ++ protocol ++ "." ++ domainName

/-- `DohSrvResolver.locateServices`, from the parsed DoH JSON response
(the HTTP transport is external): status handling, question validation,
answer filtering, deserialisation, withdrawal rule and ordering. -/
def locateServices (domainName service protocol : String)
    (response : QueryResponse) (draws : List Int) :
    Except String (Option SrvResolverResponse) :=
  let queryName := mkQueryName service protocol domainName
  if response.Status = NXDOMAIN then .ok none
  else if response.Status ≠ NOERROR then
    .error "Error response sent by the server"
  else
    match response.Question with
    | none => .error "No `Question` field found"
    | some qs =>
      match qs with
      | [question] =>
          if question.name = "" ∨ question.name ≠ queryName then
            .error "Invalid question name"
          else if question.type = 0 ∨ question.type ≠ SRV then
            .error "Invalid question type"
          else
            match response.Answer with
            | none => .ok none
            | some answers =>
                let filtered := answers.filter
                  (fun a => a.name == question.name && a.type == question.type)
                match deserialiseAll filtered with
                | .error e => .error e
                | .ok srvRecords =>
                    if srvRecords.length = 0 then .error "No valid answer found"
                    else processSrvRecords srvRecords draws response.AD
      | _ => .error "Expected only one `Question` element"

/-! ## Capability resolver (`bsvalias-core/src/capability-resolver.ts`) -/

/-- A JSON scalar, standing in for the opaque capability values
(`Capability = any` in the source); enough structure to distinguish a
key bound to a falsy value from an absent key. -/
inductive JsValue where
  | null
  | bool (b : Bool)
  | num (n : Int)
  | str (s : String)
deriving DecidableEq, Repr

/-- `Capabilities`: a JSON object mapping BRFC capability IDs to opaque
values, kept as an association list. -/
def Capabilities := List (String × JsValue)
deriving DecidableEq, Repr

/-- JavaScript property access `capabilities[capabilityCode]`: `none`
models the `undefined` returned for an absent key (a JSON object cannot
bind a key to `undefined`). -/
def jsIndex (capabilities : Capabilities) (key : String) : Option JsValue :=
  List.lookup key capabilities

/-- The parsed body of a `/.well-known/bsvalias` document
(`CapabilitiesResponse` in the source).  `capabilities = none` models a
response whose `capabilities` field is absent or not an object (the
`typeof response.capabilities !== "object"` check). -/
structure CapabilitiesResponse where
  bsvalias : String
  capabilities : Option Capabilities
deriving DecidableEq, Repr

/-- `BSVALIAS_VERSION` in the source. -/
def BSVALIAS_VERSION : String := "1.0"

/-- The error taxonomy of `bsvalias-core/src/errors.ts`, restricted to
the classes thrown by the capability resolver.  `runtimeTypeError`
models a JavaScript `TypeError` escaping the code (not one of the
declared error classes). -/
inductive BsvAliasError where
  | dnssecNotEnabled (msg : String)
  | unexpectedServerResponse (msg : String)
  | runtimeTypeError (msg : String)
deriving DecidableEq, Repr

/-- `CapabilityResolver.domainsAreEqual`: compare after
`replace(/\.$/, "")` on both sides (strip one trailing dot each). -/
def domainsAreEqual (domainName1 domainName2 : String) : Bool :=
  stripTrailingDot domainName1 == stripTrailingDot domainName2

/-- `CapabilityResolver.getWellKnownBaseUrl`, taking the (already
awaited) `SrvResolver` result.  When the resolver returned a response,
the source reads `srvResolverResponse.services[0]` and dereferences
`.host` with no emptiness guard; on an empty list `services[0]` is
`undefined` in JavaScript and the `.host` access raises a `TypeError`,
modelled by `runtimeTypeError`. -/
def getWellKnownBaseUrl (domainName : String)
    (srvResolverResponse : Option SrvResolverResponse) :
    Except BsvAliasError String :=
  let target : Except BsvAliasError (String × Int × Bool) :=
    match srvResolverResponse with
    | none => .ok (domainName, 443, false)
    | some resp =>
        match resp.services with
        | [] => .error (.runtimeTypeError "cannot read host of undefined")
        | service :: _ => .ok (service.host, service.port, resp.isDomainSecure)
  match target with
  | .error e => .error e
  | .ok (targetDomainName, targetPort, adFlag) =>
      let isSecure :=
        if domainsAreEqual targetDomainName domainName
            || domainsAreEqual targetDomainName ("www." ++ domainName) then
          true
        else adFlag
      if isSecure = false then
        .error (.dnssecNotEnabled ("DNSSEC not enabled on domain " ++ targetDomainName))
      else
        .ok ("https://" ++ targetDomainName ++ ":" ++ toString targetPort
              ++ "/.well-known/bsvalias")

/-- The response-validation tail of
`CapabilityResolver.getCapabilitiesForDomain`: require a capabilities
object, require the supported protocol version, and return the
capabilities verbatim.  (The source checks `capabilities` first, then
the version.) -/
def processCapabilitiesResponse (response : CapabilitiesResponse) :
    Except BsvAliasError Capabilities :=
  match response.capabilities with
  | none => .error (.unexpectedServerResponse "No capabilities returned")
  | some capabilities =>
      if response.bsvalias ≠ BSVALIAS_VERSION then
        .error (.unexpectedServerResponse "Unsupported BSV alias version")
      else .ok capabilities

/-- `CapabilityResolver.getCapabilitiesForDomain`, with the SRV
resolution result already awaited and the HTTP transport injected as
`request_get` (the source's `this.request.get`): resolve the well-known
base URL, fetch it, validate the document. -/
def getCapabilitiesForDomain (domainName : String)
    (srvResolverResponse : Option SrvResolverResponse)
    (request_get : String → CapabilitiesResponse) :
    Except BsvAliasError Capabilities :=
  match getWellKnownBaseUrl domainName srvResolverResponse with
  | .error e => .error e
  | .ok wellKnownBsvAliasUrl =>
      processCapabilitiesResponse (request_get wellKnownBsvAliasUrl)

/-- `CapabilityResolver.isCapabilitySupportedForDomain`:
`value === undefined ? false : true` over the fetched capabilities. -/
def isCapabilitySupportedForDomain (capabilityCode domainName : String)
    (srvResolverResponse : Option SrvResolverResponse)
    (request_get : String → CapabilitiesResponse) :
    Except BsvAliasError Bool :=
  match getCapabilitiesForDomain domainName srvResolverResponse request_get with
  | .error e => .error e
  | .ok capabilities =>
      match jsIndex capabilities capabilityCode with
      | none => .ok false
      | some _ => .ok true

/-! ## Specification-side characterizations

The following definitions are not part of the source; they restate the
ordering pipeline the way the specification describes it (priority
bands, cumulative sums) so that the theorems can compare the code
against them. -/

/-- The service emitted for a record (`{host: target, port}`). -/
def toDomainService (r : SrvRecord) : DomainService :=
  { host := r.target, port := r.port }

/-- Chunk a (sorted) record list into maximal runs of equal priority:
the specification's "priority bands". -/
def chunkByPriority : List SrvRecord → List (List SrvRecord)
  | [] => []
  | r :: rest =>
      (r :: rest.takeWhile (fun x => x.priority == r.priority)) ::
        chunkByPriority (rest.dropWhile (fun x => x.priority == r.priority))
termination_by l => l.length
decreasing_by
  simp only [List.length_cons]
  exact Nat.lt_succ_of_le ((List.dropWhile_sublist _).length_le)

/-- Feed the bands one after the other through
`orderResourceListByWeight`, threading the draw stream: the
specification's "output is the concatenation of each band's weighted
ordering". -/
def threadBands : List (List SrvRecord) → List Int → List DomainService × List Int
  | [], draws => ([], draws)
  | b :: bs, draws =>
      let res := orderResourceListByWeight b draws
      let rest := threadBands bs res.2
      (res.1 ++ rest.1, rest.2)

/-- Index of the first record whose cumulative weight sum (starting
from `acc`) is `>=` the draw `d`; length of the list if there is none. -/
def firstIdxGeAux (d acc : Int) : List SrvRecord → Nat
  | [] => 0
  | r :: rest =>
      if d ≤ acc + r.weight then 0 else firstIdxGeAux d (acc + r.weight) rest + 1

/-- The specification's selection rule: the index of the first record
whose running cumulative weight sum is `>=` the draw. -/
def firstIdxGe (d : Int) (records : List SrvRecord) : Nat :=
  firstIdxGeAux d 0 records

/-- The running cumulative weight sum through index `i` (the
`runningSum` the source stores on the record at index `i`). -/
def cumulativeWeight (records : List SrvRecord) (i : Nat) : Int :=
  ((records.take (i + 1)).map (fun r => r.weight)).sum

/-- The draw used by one selection round: the next element of the
injected stream, brought into `[0, totalWeight)` (the range of
`Math.floor(Math.random() * totalWeight)` for a positive total weight,
and `0` for total weight `0`). -/
def weightDraw (records : List SrvRecord) (draws : List Int) : Int :=
  let sumAccumulator := (records.map (fun r => r.weight)).sum
  if 0 < sumAccumulator then (draws.headD 0) % sumAccumulator else 0

/-! ## Helper lemmas -/

/-- The default (no SRV indirection) well-known URL. -/
theorem getWellKnownBaseUrl_none (domainName : String) :
    getWellKnownBaseUrl domainName none =
      .ok ("https://" ++ domainName ++ ":443/.well-known/bsvalias") := by
  unfold getWellKnownBaseUrl domainsAreEqual
  dsimp only
  rw [beq_self_eq_true]
  simp only [Bool.true_or, if_true]
  rw [String.append_assoc ("https://" ++ domainName ++ ":") (toString (443 : Int))
        "/.well-known/bsvalias",
      String.append_assoc ("https://" ++ domainName) ":"]
  rfl

/-- C7: when the `SrvResolver` returns `null`, `getCapabilitiesForDomain`
falls back to the original domain as authoritative: the well-known URL
is `https://{domainName}:443/.well-known/bsvalias` (no
authentication-not-enabled error is raised), and the fetched document
from exactly that URL is what gets validated. -/
theorem null_fallback_authoritative (domainName : String)
    (request_get : String → CapabilitiesResponse) :
    getWellKnownBaseUrl domainName none =
        .ok ("https://" ++ domainName ++ ":443/.well-known/bsvalias")
      ∧ getCapabilitiesForDomain domainName none request_get =
          processCapabilitiesResponse
            (request_get ("https://" ++ domainName ++ ":443/.well-known/bsvalias")) := by
  refine ⟨getWellKnownBaseUrl_none domainName, ?_⟩
  unfold getCapabilitiesForDomain
  rw [getWellKnownBaseUrl_none domainName]

/-- C8: the well-known document is rejected with an
unexpected-server-response error when no capabilities object is present
or when the version field differs from the supported protocol version,
and otherwise the capabilities mapping is returned verbatim, with no
filtering or type-checking of individual capability values. -/
theorem wellknown_document_checks (domainName : String)
    (response : CapabilitiesResponse) :
    (response.capabilities = none →
        getCapabilitiesForDomain domainName none (fun _ => response) =
          .error (.unexpectedServerResponse "No capabilities returned"))
    ∧ (∀ caps, response.capabilities = some caps →
        response.bsvalias ≠ BSVALIAS_VERSION →
        getCapabilitiesForDomain domainName none (fun _ => response) =
          .error (.unexpectedServerResponse "Unsupported BSV alias version"))
    ∧ (∀ caps, response.capabilities = some caps →
        response.bsvalias = BSVALIAS_VERSION →
        getCapabilitiesForDomain domainName none (fun _ => response) = .ok caps) := by
  unfold getCapabilitiesForDomain
  rw [getWellKnownBaseUrl_none domainName]
  unfold processCapabilitiesResponse
  dsimp only
  refine ⟨?_, ?_, ?_⟩
  · intro hc; rw [hc]
  · intro caps hc hv; rw [hc]; exact if_pos hv
  · intro caps hc hv; rw [hc]; exact if_neg (fun h => h hv)

/-- C8 witness: a document without capabilities is rejected, a document
with the wrong version is rejected, a well-formed document has its
capabilities returned verbatim. -/
theorem wellknown_document_checks_witness :
    getCapabilitiesForDomain "d" none (fun _ => { bsvalias := "1.0", capabilities := none }) =
        .error (.unexpectedServerResponse "No capabilities returned")
    ∧ getCapabilitiesForDomain "d" none (fun _ => { bsvalias := "0.9", capabilities := some [] }) =
        .error (.unexpectedServerResponse "Unsupported BSV alias version")
    ∧ getCapabilitiesForDomain "d" none
          (fun _ => { bsvalias := "1.0", capabilities := some [("pki", JsValue.str "u")] }) =
        .ok [("pki", JsValue.str "u")] :=
  ⟨(wellknown_document_checks "d" _).1 rfl,
   (wellknown_document_checks "d" _).2.1 [] rfl (by decide),
   (wellknown_document_checks "d" _).2.2 _ rfl rfl⟩

/-- C9: once capability fetching succeeds,
`isCapabilitySupportedForDomain` answers `false` exactly when the
capability ID is absent from the mapping, and `true` whenever the key is
present, whatever (possibly falsy) value it is bound to. -/
theorem capability_support_iff_presence
    (capabilityCode domainName : String) (srvResp : Option SrvResolverResponse)
    (request_get : String → CapabilitiesResponse) (capabilities : Capabilities)
    (h : getCapabilitiesForDomain domainName srvResp request_get = .ok capabilities) :
    (jsIndex capabilities capabilityCode = none →
        isCapabilitySupportedForDomain capabilityCode domainName srvResp request_get =
          .ok false)
    ∧ ∀ v, jsIndex capabilities capabilityCode = some v →
        isCapabilitySupportedForDomain capabilityCode domainName srvResp request_get =
          .ok true := by
  unfold isCapabilitySupportedForDomain
  rw [h]
  dsimp only
  exact ⟨fun hn => by rw [hn], fun v hv => by rw [hv]⟩

/-- C9 witness: a key bound to the falsy value `0` counts as supported;
an absent key does not. -/
theorem capability_support_iff_presence_witness :
    isCapabilitySupportedForDomain "cap" "example.com" none
        (fun _ => { bsvalias := "1.0", capabilities := some [("cap", JsValue.num 0)] }) =
      .ok true
    ∧ isCapabilitySupportedForDomain "missing" "example.com" none
        (fun _ => { bsvalias := "1.0", capabilities := some [("cap", JsValue.num 0)] }) =
      .ok false :=
  ⟨(capability_support_iff_presence "cap" "example.com" none
      (fun _ => { bsvalias := "1.0", capabilities := some [("cap", JsValue.num 0)] })
      [("cap", JsValue.num 0)] rfl).2 (JsValue.num 0) rfl,
   (capability_support_iff_presence "missing" "example.com" none
      (fun _ => { bsvalias := "1.0", capabilities := some [("cap", JsValue.num 0)] })
      [("cap", JsValue.num 0)] rfl).1 rfl⟩

/-- C1: with an SRV-resolved target, a target host equal (after
trailing-dot normalization) to the queried domain or to its `www.`
variant is fetched regardless of the authenticated-data flag, while any
other target with `isDomainSecure = false` fails with the DNSSEC
(authentication-not-enabled) error naming the target host, and no
well-known fetch is performed (the outcome of
`getCapabilitiesForDomain` is that error for every transport). -/
theorem getWellKnownBaseUrl_trust_policy
    (domainName : String) (resp : SrvResolverResponse) (service : DomainService)
    (rest : List DomainService) (hs : resp.services = service :: rest) :
    ((domainsAreEqual service.host domainName = true ∨
        domainsAreEqual service.host ("www." ++ domainName) = true) →
      getWellKnownBaseUrl domainName (some resp) =
        .ok ("https://" ++ service.host ++ ":" ++ toString service.port
              ++ "/.well-known/bsvalias"))
    ∧ (domainsAreEqual service.host domainName = false →
       domainsAreEqual service.host ("www." ++ domainName) = false →
       resp.isDomainSecure = false →
        getWellKnownBaseUrl domainName (some resp) =
          .error (.dnssecNotEnabled ("DNSSEC not enabled on domain " ++ service.host))
        ∧ ∀ request_get,
            getCapabilitiesForDomain domainName (some resp) request_get =
              .error (.dnssecNotEnabled ("DNSSEC not enabled on domain " ++ service.host))) := by
  constructor
  · intro h1
    unfold getWellKnownBaseUrl
    dsimp only
    rw [hs]
    dsimp only
    rcases h1 with h1 | h1
    · rw [h1]; rfl
    · rw [h1, Bool.or_true]; rfl
  · intro h1 h2 h3
    have herr : getWellKnownBaseUrl domainName (some resp) =
        .error (.dnssecNotEnabled ("DNSSEC not enabled on domain " ++ service.host)) := by
      unfold getWellKnownBaseUrl
      dsimp only
      rw [hs]
      dsimp only
      rw [h1, h2, h3]
      rfl
    refine ⟨herr, fun request_get => ?_⟩
    unfold getCapabilitiesForDomain
    rw [herr]

/-- C1 witness: a third-party target with the authenticated-data flag
down is refused; a `www.`-with-trailing-dot target is trusted even with
the flag down. -/
theorem getWellKnownBaseUrl_trust_policy_witness :
    getWellKnownBaseUrl "example.com"
        (some { services := [{ host := "evil.org", port := 443 }], isDomainSecure := false }) =
      .error (.dnssecNotEnabled ("DNSSEC not enabled on domain " ++ "evil.org"))
    ∧ getWellKnownBaseUrl "example.com"
        (some { services := [{ host := "www.example.com.", port := 8443 }],
                isDomainSecure := false }) =
      .ok ("https://" ++ "www.example.com." ++ ":" ++ toString (8443 : Int)
            ++ "/.well-known/bsvalias") :=
  ⟨((getWellKnownBaseUrl_trust_policy "example.com" _ _ _ rfl).2
      (by decide) (by decide) rfl).1,
   (getWellKnownBaseUrl_trust_policy "example.com" _ _ _ rfl).1 (Or.inr (by decide))⟩

/-- C10: a validated answer set whose records are two sentinel-target
records yields a non-`null` response with an empty services list, and on
such a response `getWellKnownBaseUrl` dereferences `services[0]` with no
emptiness guard, so capability resolution aborts with a runtime type
error (outside the declared error classes) instead of falling back to
the original domain. -/
theorem empty_services_runtime_error :
    (∀ (domainName : String) (resp : SrvResolverResponse), resp.services = [] →
        getWellKnownBaseUrl domainName (some resp) =
          .error (.runtimeTypeError "cannot read host of undefined")
        ∧ ∀ request_get,
            getCapabilitiesForDomain domainName (some resp) request_get =
              .error (.runtimeTypeError "cannot read host of undefined"))
    ∧ locateServices "example.com" "bsvalias" "tcp"
        { Status := 0, AD := true,
          Question := some [{ name := "_bsvalias._tcp.example.com", type := 33 }],
          Answer := some
            [{ name := "_bsvalias._tcp.example.com", type := 33, TTL := 299,
               data := "1 0 443 ." },
             { name := "_bsvalias._tcp.example.com", type := 33, TTL := 299,
               data := "1 0 443 ." }] }
        [] =
      .ok (some { services := [], isDomainSecure := true }) := by
  refine ⟨?_, rfl⟩
  intro domainName resp h
  have herr : getWellKnownBaseUrl domainName (some resp) =
      .error (.runtimeTypeError "cannot read host of undefined") := by
    unfold getWellKnownBaseUrl
    dsimp only
    rw [h]
  refine ⟨herr, fun request_get => ?_⟩
  unfold getCapabilitiesForDomain
  rw [herr]

/-- C10 witness: the empty-services response produced by the
two-sentinel answer set makes capability resolution abort with the
runtime type error. -/
theorem empty_services_runtime_error_witness :
    getWellKnownBaseUrl "example.com"
        (some { services := [], isDomainSecure := true }) =
      .error (.runtimeTypeError "cannot read host of undefined")
    ∧ getCapabilitiesForDomain "example.com"
        (some { services := [], isDomainSecure := true })
        (fun _ => { bsvalias := "1.0", capabilities := some [] }) =
      .error (.runtimeTypeError "cannot read host of undefined") :=
  ⟨(empty_services_runtime_error.1 "example.com"
      { services := [], isDomainSecure := true } rfl).1,
   (empty_services_runtime_error.1 "example.com"
      { services := [], isDomainSecure := true } rfl).2
     (fun _ => { bsvalias := "1.0", capabilities := some [] })⟩

/-- C6 counterexample: the target token `...` (all dots) is not
normalized to the sentinel `.`: the parser strips exactly one trailing
dot and keeps `..`. -/
theorem deserialise_target_all_dot_counterexample :
    deserialiseSrvAnswer { name := "x", type := 33, TTL := 0, data := "1 2 3 ..." } =
      .ok { name := "x", TTL := 0, priority := 1, weight := 2, port := 3, target := ".." }
    ∧ (".." : String) ≠ "." := ⟨rfl, by decide⟩

/-- C6 (amended): deserialisation fails unless `data` is exactly four
space-separated tokens; each numeric token failing `parseInt` yields its
own field-identifying error; a target token whose dot-stripped form
contains a line terminator fails the anchored regular-expression match
and yields the invalid-target error; otherwise the target token has a
single optional trailing dot stripped, with an empty result normalized
to the sentinel `.` (the tokens `.`, the empty token and `..` all end
up as `.`, while a token of three or more dots keeps its extra dots,
e.g. `...` yields `..`); the five messages are pairwise distinct. -/
theorem deserialiseSrvAnswer_amended (answer : ResourceRecordAnswer) :
    ((splitOnChar ' ' answer.data.data).length ≠ 4 →
        deserialiseSrvAnswer answer = .error "Invalid answer")
    ∧ ((splitOnChar ' ' answer.data.data).length = 4 →
        (parseIntJs ((splitOnChar ' ' answer.data.data).getD 0 []) = none →
            deserialiseSrvAnswer answer =
              .error "Invalid priority: value could not be converted to a number")
        ∧ (∀ p, parseIntJs ((splitOnChar ' ' answer.data.data).getD 0 []) = some p →
            parseIntJs ((splitOnChar ' ' answer.data.data).getD 1 []) = none →
            deserialiseSrvAnswer answer =
              .error "Invalid weight: value could not be converted to a number")
        ∧ (∀ p w, parseIntJs ((splitOnChar ' ' answer.data.data).getD 0 []) = some p →
            parseIntJs ((splitOnChar ' ' answer.data.data).getD 1 []) = some w →
            parseIntJs ((splitOnChar ' ' answer.data.data).getD 2 []) = none →
            deserialiseSrvAnswer answer =
              .error "Invalid port: value could not be converted to a number")
        ∧ (∀ p w pt,
            parseIntJs ((splitOnChar ' ' answer.data.data).getD 0 []) = some p →
            parseIntJs ((splitOnChar ' ' answer.data.data).getD 1 []) = some w →
            parseIntJs ((splitOnChar ' ' answer.data.data).getD 2 []) = some pt →
            ((stripTrailingDot ⟨(splitOnChar ' ' answer.data.data).getD 3 []⟩).data.any
                  isLineTerminator = true →
                deserialiseSrvAnswer answer = .error "Invalid target domain name found")
            ∧ ((stripTrailingDot ⟨(splitOnChar ' ' answer.data.data).getD 3 []⟩).data.any
                  isLineTerminator = false →
                deserialiseSrvAnswer answer =
                  .ok { name := answer.name, TTL := answer.TTL, priority := p,
                        weight := w, port := pt,
                        target :=
                          if stripTrailingDot ⟨(splitOnChar ' ' answer.data.data).getD 3 []⟩ = ""
                          then "."
                          else stripTrailingDot ⟨(splitOnChar ' ' answer.data.data).getD 3 []⟩ })))
    ∧ List.Pairwise (fun a b => a ≠ b)
        (["Invalid answer",
          "Invalid priority: value could not be converted to a number",
          "Invalid weight: value could not be converted to a number",
          "Invalid port: value could not be converted to a number",
          "Invalid target domain name found"] : List String) := by
  refine ⟨?_, ?_, by decide⟩
  · intro hlen
    unfold deserialiseSrvAnswer
    rw [if_pos hlen]
  · intro hlen
    have hne : ¬((splitOnChar ' ' answer.data.data).length ≠ 4) := fun h => h hlen
    refine ⟨?_, ?_, ?_, ?_⟩
    · intro hp; unfold deserialiseSrvAnswer; rw [if_neg hne]; dsimp only; rw [hp]
    · intro p hp hw; unfold deserialiseSrvAnswer; rw [if_neg hne]; dsimp only
      rw [hp]; dsimp only; rw [hw]
    · intro p w hp hw hpt; unfold deserialiseSrvAnswer; rw [if_neg hne]; dsimp only
      rw [hp]; dsimp only; rw [hw]; dsimp only; rw [hpt]
    · intro p w pt hp hw hpt
      constructor
      · intro hterm
        unfold deserialiseSrvAnswer; rw [if_neg hne]; dsimp only
        rw [hp]; dsimp only; rw [hw]; dsimp only; rw [hpt]; dsimp only
        rw [if_pos hterm]
      · intro hterm
        unfold deserialiseSrvAnswer; rw [if_neg hne]; dsimp only
        rw [hp]; dsimp only; rw [hw]; dsimp only; rw [hpt]; dsimp only
        rw [if_neg (by rw [hterm]; exact Bool.false_ne_true)]

/-- C6 witness: a three-token record is rejected, a non-numeric priority
is rejected with the priority message, a target containing a line
terminator is rejected with the invalid-target message, and a
well-formed record has its trailing dot stripped from the target. -/
theorem deserialiseSrvAnswer_amended_witness :
    deserialiseSrvAnswer { name := "x", type := 33, TTL := 0, data := "1 2 3" } =
        .error "Invalid answer"
    ∧ deserialiseSrvAnswer { name := "x", type := 33, TTL := 0, data := "a 2 3 t" } =
        .error "Invalid priority: value could not be converted to a number"
    ∧ deserialiseSrvAnswer { name := "x", type := 33, TTL := 0, data := "1 2 3 a\nb" } =
        .error "Invalid target domain name found"
    ∧ deserialiseSrvAnswer
          { name := "x", type := 33, TTL := 0, data := "10 10 443 example.com." } =
        .ok { name := "x", TTL := 0, priority := 10, weight := 10, port := 443,
              target := "example.com" } :=
  ⟨(deserialiseSrvAnswer_amended _).1 (by decide),
   ((deserialiseSrvAnswer_amended _).2.1 (by decide)).1 (by decide),
   (((deserialiseSrvAnswer_amended _).2.1 (by decide)).2.2.2 1 2 3
     (by decide) (by decide) (by decide)).1 (by decide),
   (((deserialiseSrvAnswer_amended _).2.1 (by decide)).2.2.2 10 10 443
     (by decide) (by decide) (by decide)).2 (by decide)⟩

/-- The query name is never the empty string (it starts with an
underscore), so the falsy-name guard of the source cannot fire for a
name equal to the query name. -/
theorem mkQueryName_ne_empty (service protocol domainName : String) :
    mkQueryName service protocol domainName ≠ "" := by
  intro h
  have h2 := congrArg String.data h
  simp only [mkQueryName, String.data_append] at h2
  simp at h2

/-- C5: the response-validation taxonomy of `locateServices`: the
domain-not-found status and an absent `Answer` section both yield `null`
(`.ok none`); every other anomaly fails — any other non-NOERROR status,
a missing `Question` field, a question count different from one, a
question name not equal to the query name, a question type different
from SRV, and a present `Answer` whose entries are all filtered out —
each with its own distinct message. -/
theorem locateServices_response_taxonomy
    (domainName service protocol : String) (response : QueryResponse)
    (draws : List Int) :
    (response.Status = NXDOMAIN →
        locateServices domainName service protocol response draws = .ok none)
    ∧ (response.Status ≠ NXDOMAIN → response.Status ≠ NOERROR →
        locateServices domainName service protocol response draws =
          .error "Error response sent by the server")
    ∧ (response.Status = NOERROR → response.Question = none →
        locateServices domainName service protocol response draws =
          .error "No `Question` field found")
    ∧ (response.Status = NOERROR → ∀ qs, response.Question = some qs →
        qs.length ≠ 1 →
        locateServices domainName service protocol response draws =
          .error "Expected only one `Question` element")
    ∧ (response.Status = NOERROR → ∀ q, response.Question = some [q] →
        q.name ≠ mkQueryName service protocol domainName →
        locateServices domainName service protocol response draws =
          .error "Invalid question name")
    ∧ (response.Status = NOERROR → ∀ q, response.Question = some [q] →
        q.name = mkQueryName service protocol domainName → q.type ≠ SRV →
        locateServices domainName service protocol response draws =
          .error "Invalid question type")
    ∧ (response.Status = NOERROR → ∀ q, response.Question = some [q] →
        q.name = mkQueryName service protocol domainName → q.type = SRV →
        response.Answer = none →
        locateServices domainName service protocol response draws = .ok none)
    ∧ (response.Status = NOERROR → ∀ q, response.Question = some [q] →
        q.name = mkQueryName service protocol domainName → q.type = SRV →
        ∀ answers, response.Answer = some answers →
        answers.filter (fun a => a.name == q.name && a.type == q.type) = [] →
        locateServices domainName service protocol response draws =
          .error "No valid answer found")
    ∧ List.Pairwise (fun a b => a ≠ b)
        (["Error response sent by the server", "No `Question` field found",
          "Expected only one `Question` element", "Invalid question name",
          "Invalid question type", "No valid answer found"] : List String) := by
  have hqn := mkQueryName_ne_empty service protocol domainName
  refine ⟨?_, ?_, ?_, ?_, ?_, ?_, ?_, ?_, by decide⟩
  · intro hst
    unfold locateServices
    rw [if_pos hst]
  · intro hnx hne
    unfold locateServices
    rw [if_neg hnx, if_pos hne]
  · intro hst hq
    unfold locateServices
    rw [if_neg (by rw [hst]; decide), if_neg (by rw [hst]; simp [NOERROR]), hq]
  · intro hst qs hq hlen
    unfold locateServices
    rw [if_neg (by rw [hst]; decide), if_neg (by rw [hst]; simp [NOERROR]), hq]
    dsimp only
    match qs, hlen with
    | [], _ => rfl
    | [a], h => exact absurd rfl h
    | a :: b :: rest, _ => rfl
  · intro hst q hq hname
    unfold locateServices
    rw [if_neg (by rw [hst]; decide), if_neg (by rw [hst]; simp [NOERROR]), hq]
    dsimp only
    rw [if_pos (Or.inr hname)]
  · intro hst q hq hname htype
    unfold locateServices
    rw [if_neg (by rw [hst]; decide), if_neg (by rw [hst]; simp [NOERROR]), hq]
    dsimp only
    rw [if_neg ?_, if_pos (Or.inr htype)]
    rintro (h0 | h0)
    · exact hqn (hname.symm.trans h0)
    · exact h0 hname
  · intro hst q hq hname htype ha
    unfold locateServices
    rw [if_neg (by rw [hst]; decide), if_neg (by rw [hst]; simp [NOERROR]), hq]
    dsimp only
    rw [if_neg ?_, if_neg ?_, ha]
    · rintro (h0 | h0)
      · rw [htype] at h0; exact absurd h0 (by decide)
      · exact h0 htype
    · rintro (h0 | h0)
      · exact hqn (hname.symm.trans h0)
      · exact h0 hname
  · intro hst q hq hname htype answers ha hfil
    unfold locateServices
    rw [if_neg (by rw [hst]; decide), if_neg (by rw [hst]; simp [NOERROR]), hq]
    dsimp only
    rw [if_neg ?_, if_neg ?_, ha]
    · dsimp only
      rw [hfil]
      rfl
    · rintro (h0 | h0)
      · rw [htype] at h0; exact absurd h0 (by decide)
      · exact h0 htype
    · rintro (h0 | h0)
      · exact hqn (hname.symm.trans h0)
      · exact h0 hname

/-- C5 witness: concrete responses exercising the `null` cases and the
distinct failure messages. -/
theorem locateServices_response_taxonomy_witness :
    locateServices "example.com" "bsvalias" "tcp"
        { Status := 3, AD := false, Question := none, Answer := none } [] = .ok none
    ∧ locateServices "example.com" "bsvalias" "tcp"
        { Status := 2, AD := false, Question := none, Answer := none } [] =
      .error "Error response sent by the server"
    ∧ locateServices "example.com" "bsvalias" "tcp"
        { Status := 0, AD := false, Question := none, Answer := none } [] =
      .error "No `Question` field found"
    ∧ locateServices "example.com" "bsvalias" "tcp"
        { Status := 0, AD := false, Question := some [], Answer := none } [] =
      .error "Expected only one `Question` element"
    ∧ locateServices "example.com" "bsvalias" "tcp"
        { Status := 0, AD := false,
          Question := some [{ name := "wrong.example.com", type := 33 }],
          Answer := none } [] =
      .error "Invalid question name"
    ∧ locateServices "example.com" "bsvalias" "tcp"
        { Status := 0, AD := false,
          Question := some [{ name := "_bsvalias._tcp.example.com", type := 1 }],
          Answer := none } [] =
      .error "Invalid question type"
    ∧ locateServices "example.com" "bsvalias" "tcp"
        { Status := 0, AD := false,
          Question := some [{ name := "_bsvalias._tcp.example.com", type := 33 }],
          Answer := none } [] = .ok none
    ∧ locateServices "example.com" "bsvalias" "tcp"
        { Status := 0, AD := true,
          Question := some [{ name := "_bsvalias._tcp.example.com", type := 33 }],
          Answer := some [{ name := "unrelated.example.com", type := 33, TTL := 1,
                            data := "1 2 3 t" }] } [] =
      .error "No valid answer found" := by
  refine ⟨?_, ?_, ?_, ?_, ?_, ?_, ?_, ?_⟩
  · exact (locateServices_response_taxonomy "example.com" "bsvalias" "tcp" _ []).1 rfl
  · exact (locateServices_response_taxonomy "example.com" "bsvalias" "tcp" _ []).2.1
      (by decide) (by decide)
  · exact (locateServices_response_taxonomy "example.com" "bsvalias" "tcp" _ []).2.2.1 rfl rfl
  · exact (locateServices_response_taxonomy "example.com" "bsvalias" "tcp" _ []).2.2.2.1
      rfl [] rfl (by decide)
  · exact (locateServices_response_taxonomy "example.com" "bsvalias" "tcp" _ []).2.2.2.2.1
      rfl _ rfl (by decide)
  · exact (locateServices_response_taxonomy "example.com" "bsvalias" "tcp"
      _ []).2.2.2.2.2.1 rfl _ rfl rfl (by decide)
  · exact (locateServices_response_taxonomy "example.com" "bsvalias" "tcp"
      _ []).2.2.2.2.2.2.1 rfl _ rfl rfl rfl rfl
  · exact (locateServices_response_taxonomy "example.com" "bsvalias" "tcp"
      _ []).2.2.2.2.2.2.2.1 rfl _ rfl rfl rfl _ rfl (by decide)

/-! ## Weighted-selection lemmas -/

/-- The selection scan picks exactly the first record whose running sum
reaches the draw (`firstIdxGeAux`), and keeps the others in order
(`eraseIdx`); when no running sum reaches the draw it selects nothing
and keeps everything. -/
theorem selectByDraw_spec (d : Int) (l : List SrvRecord) : ∀ acc : Int,
    (selectByDraw d acc l).1 = l[firstIdxGeAux d acc l]? ∧
    (selectByDraw d acc l).2 = l.eraseIdx (firstIdxGeAux d acc l) := by
  induction l with
  | nil => intro acc; exact ⟨rfl, rfl⟩
  | cons r rest ih =>
      intro acc
      by_cases h : d ≤ acc + r.weight
      · simp [selectByDraw, firstIdxGeAux, h]
      · have hr := ih (acc + r.weight)
        simp only [selectByDraw, firstIdxGeAux, if_neg h]
        constructor
        · rw [List.getElem?_cons_succ]
          exact hr.1
        · rw [List.eraseIdx_cons_succ]
          rw [hr.2]

/-- When the draw does not exceed the total remaining weight, some
running sum reaches it, so the selected index is in range. -/
theorem firstIdxGeAux_lt (d : Int) :
    ∀ (l : List SrvRecord) (acc : Int), l ≠ [] →
      d ≤ acc + ((l.map (fun r => r.weight)).sum) →
      firstIdxGeAux d acc l < l.length := by
  intro l
  induction l with
  | nil => intro acc h _; exact absurd rfl h
  | cons r rest ih =>
      intro acc _ hd
      by_cases h : d ≤ acc + r.weight
      · simp [firstIdxGeAux, h]
      · rcases rest with _ | ⟨s, rest2⟩
        · exfalso
          apply h
          simp only [List.map_cons, List.map_nil, List.sum_cons, List.sum_nil] at hd
          omega
        · rw [firstIdxGeAux, if_neg h]
          have hh : d ≤ (acc + r.weight) + (((s :: rest2).map (fun r => r.weight)).sum) := by
            simp only [List.map_cons, List.sum_cons] at hd ⊢
            omega
          have := ih (acc + r.weight) (by simp) hh
          simp only [List.length_cons] at this ⊢
          omega

/-- Every running sum strictly before the selected index is below the
draw. -/
theorem firstIdxGeAux_before (d : Int) :
    ∀ (l : List SrvRecord) (acc : Int) (j : Nat), j < firstIdxGeAux d acc l →
      acc + cumulativeWeight l j < d := by
  intro l
  induction l with
  | nil => intro acc j hj; simp [firstIdxGeAux] at hj
  | cons r rest ih =>
      intro acc j hj
      by_cases h : d ≤ acc + r.weight
      · rw [firstIdxGeAux, if_pos h] at hj
        exact absurd hj (by omega)
      · rw [firstIdxGeAux, if_neg h] at hj
        rcases j with _ | j
        · simp only [cumulativeWeight, List.take_succ_cons, List.take_zero,
            List.map_cons, List.map_nil, List.sum_cons, List.sum_nil]
          omega
        · have := ih (acc + r.weight) j (by omega)
          simp only [cumulativeWeight, List.take_succ_cons, List.map_cons,
            List.sum_cons] at this ⊢
          omega

/-- The running sum at the selected index reaches the draw (when the
index is in range). -/
theorem firstIdxGeAux_reaches (d : Int) :
    ∀ (l : List SrvRecord) (acc : Int), firstIdxGeAux d acc l < l.length →
      d ≤ acc + cumulativeWeight l (firstIdxGeAux d acc l) := by
  intro l
  induction l with
  | nil => intro acc h; simp at h
  | cons r rest ih =>
      intro acc _h
      by_cases h : d ≤ acc + r.weight
      · rw [firstIdxGeAux, if_pos h]
        simp only [cumulativeWeight, List.take_succ_cons, List.take_zero,
          List.map_cons, List.map_nil, List.sum_cons, List.sum_nil]
        omega
      · rw [firstIdxGeAux, if_neg h] at _h ⊢
        simp only [List.length_cons] at _h
        have := ih (acc + r.weight) (by omega)
        simp only [cumulativeWeight, List.take_succ_cons, List.map_cons,
          List.sum_cons] at this ⊢
        omega

/-- The draw of a selection round never exceeds the total weight when
all weights are non-negative. -/
theorem weightDraw_le_total (records : List SrvRecord) (draws : List Int)
    (hw : ∀ x ∈ records, (0:Int) ≤ x.weight) :
    weightDraw records draws ≤ ((records.map (fun r => r.weight)).sum) := by
  have htot : (0:Int) ≤ (records.map (fun r => r.weight)).sum := by
    apply List.sum_nonneg
    intro x hx
    obtain ⟨r, hr, rfl⟩ := List.mem_map.mp hx
    exact hw r hr
  unfold weightDraw
  dsimp only
  by_cases hpos : 0 < (records.map (fun r => r.weight)).sum
  · rw [if_pos hpos]
    have := Int.emod_lt_of_pos (draws.headD 0) hpos
    omega
  · rw [if_neg hpos]
    omega

/-- One round of the `while` loop on two or more records: the selected
record is the first whose running sum reaches the round's draw; it is
emitted and removed, one draw is consumed, and the loop continues on
the remaining records. -/
theorem orderResourceListByWeight_step (r1 r2 : SrvRecord) (rest : List SrvRecord)
    (draws : List Int) (hw : ∀ x ∈ r1 :: r2 :: rest, (0:Int) ≤ x.weight) :
    firstIdxGe (weightDraw (r1 :: r2 :: rest) draws) (r1 :: r2 :: rest) <
      (r1 :: r2 :: rest).length ∧
    ∀ sel,
      (r1 :: r2 :: rest)[firstIdxGe (weightDraw (r1 :: r2 :: rest) draws)
          (r1 :: r2 :: rest)]? = some sel →
      orderResourceListByWeight (r1 :: r2 :: rest) draws =
        (toDomainService sel ::
            (orderResourceListByWeight
              ((r1 :: r2 :: rest).eraseIdx
                (firstIdxGe (weightDraw (r1 :: r2 :: rest) draws) (r1 :: r2 :: rest)))
              draws.tail).1,
          (orderResourceListByWeight
              ((r1 :: r2 :: rest).eraseIdx
                (firstIdxGe (weightDraw (r1 :: r2 :: rest) draws) (r1 :: r2 :: rest)))
              draws.tail).2) := by
  have hd := weightDraw_le_total (r1 :: r2 :: rest) draws hw
  have hlt : firstIdxGe (weightDraw (r1 :: r2 :: rest) draws) (r1 :: r2 :: rest) <
      (r1 :: r2 :: rest).length :=
    firstIdxGeAux_lt _ _ 0 (by simp) (by omega)
  refine ⟨hlt, fun sel hsel => ?_⟩
  have hspec := selectByDraw_spec (weightDraw (r1 :: r2 :: rest) draws) (r1 :: r2 :: rest) 0
  have h1 : (selectByDraw (weightDraw (r1 :: r2 :: rest) draws) 0 (r1 :: r2 :: rest)).1 =
      some sel := by rw [hspec.1]; exact hsel
  have h2 := hspec.2
  have hklen : ((r1 :: r2 :: rest).eraseIdx
      (firstIdxGe (weightDraw (r1 :: r2 :: rest) draws) (r1 :: r2 :: rest))).length =
      rest.length + 1 := by
    rw [List.length_eraseIdx_of_lt hlt]
    simp
  unfold orderResourceListByWeight
  rw [hklen]
  simp only [List.length_cons]
  rw [orderResourceListByWeightAux.eq_def]
  dsimp only
  rw [← show weightDraw (r1 :: r2 :: rest) draws =
        (if 0 < ((r1 :: r2 :: rest).map (fun r => r.weight)).sum then
          draws.headD 0 % ((r1 :: r2 :: rest).map (fun r => r.weight)).sum
        else 0) from rfl]
  rw [h1, h2]
  rfl

/-- C4: the RFC 2782 weighted ordering of a single priority band: a
sole remaining record is emitted without consuming a draw; otherwise the
round's draw lies in `[0, totalWeight)`, the selected record is the
first whose running cumulative weight sum reaches the draw (all earlier
running sums are strictly below it), the selection is emitted and
removed and the loop repeats on the rest; and for two records of
weights 3 and 7 with a forced draw of 2 the weight-3 record is selected
first. -/
theorem orderResourceListByWeight_rfc2782 :
    (∀ (r : SrvRecord) (draws : List Int),
        orderResourceListByWeight [r] draws = ([toDomainService r], draws))
    ∧ (∀ (d : Int) (rs : List SrvRecord) (j : Nat),
        j < firstIdxGe d rs → cumulativeWeight rs j < d)
    ∧ (∀ (d : Int) (rs : List SrvRecord),
        firstIdxGe d rs < rs.length → d ≤ cumulativeWeight rs (firstIdxGe d rs))
    ∧ (∀ (r1 r2 : SrvRecord) (rest : List SrvRecord) (draws : List Int),
        (∀ x ∈ r1 :: r2 :: rest, (0:Int) ≤ x.weight) →
        ∀ sel,
          (r1 :: r2 :: rest)[firstIdxGe (weightDraw (r1 :: r2 :: rest) draws)
              (r1 :: r2 :: rest)]? = some sel →
          orderResourceListByWeight (r1 :: r2 :: rest) draws =
            (toDomainService sel ::
                (orderResourceListByWeight
                  ((r1 :: r2 :: rest).eraseIdx
                    (firstIdxGe (weightDraw (r1 :: r2 :: rest) draws) (r1 :: r2 :: rest)))
                  draws.tail).1,
              (orderResourceListByWeight
                  ((r1 :: r2 :: rest).eraseIdx
                    (firstIdxGe (weightDraw (r1 :: r2 :: rest) draws) (r1 :: r2 :: rest)))
                  draws.tail).2))
    ∧ orderResourceListByWeight
        [{ name := "n", TTL := 0, priority := 10, weight := 3, port := 443, target := "a" },
         { name := "n", TTL := 0, priority := 10, weight := 7, port := 443, target := "b" }]
        [2] =
      ([{ host := "a", port := 443 }, { host := "b", port := 443 }], []) := by
  refine ⟨fun r draws => rfl, ?_, ?_, ?_, rfl⟩
  · intro d rs j hj
    have := firstIdxGeAux_before d rs 0 j hj
    omega
  · intro d rs h
    unfold firstIdxGe at h ⊢
    have := firstIdxGeAux_reaches d rs 0 h
    omega
  · intro r1 r2 rest draws hw
    exact (orderResourceListByWeight_step r1 r2 rest draws hw).2

/-- C4 witness: the sole-record case consumes no draw, and the
two-record 3/7 band with forced draw 2 steps by selecting the weight-3
record. -/
theorem orderResourceListByWeight_rfc2782_witness :
    orderResourceListByWeight
        [{ name := "n", TTL := 0, priority := 10, weight := 3, port := 443, target := "a" }]
        [9] =
      ([toDomainService
          { name := "n", TTL := 0, priority := 10, weight := 3, port := 443, target := "a" }],
       [9])
    ∧ orderResourceListByWeight
        [{ name := "n", TTL := 0, priority := 10, weight := 3, port := 443, target := "a" },
         { name := "n", TTL := 0, priority := 10, weight := 7, port := 443, target := "b" }]
        [2] =
      (toDomainService
          { name := "n", TTL := 0, priority := 10, weight := 3, port := 443, target := "a" } ::
          (orderResourceListByWeight
            [{ name := "n", TTL := 0, priority := 10, weight := 7, port := 443, target := "b" }]
            []).1,
       (orderResourceListByWeight
            [{ name := "n", TTL := 0, priority := 10, weight := 7, port := 443, target := "b" }]
            []).2) :=
  ⟨orderResourceListByWeight_rfc2782.1 _ [9],
   orderResourceListByWeight_rfc2782.2.2.2.1
     { name := "n", TTL := 0, priority := 10, weight := 3, port := 443, target := "a" }
     { name := "n", TTL := 0, priority := 10, weight := 7, port := 443, target := "b" }
     [] [2] (by decide)
     { name := "n", TTL := 0, priority := 10, weight := 3, port := 443, target := "a" } rfl⟩

/-! ## Priority-band lemmas -/

/-- A non-empty constant-priority list forms a single band. -/
theorem chunkByPriority_const (t : SrvRecord) (ts : List SrvRecord) (p : Int)
    (hall : ∀ x ∈ t :: ts, x.priority = p) :
    chunkByPriority (t :: ts) = [t :: ts] := by
  have ht1 : t.priority = p := hall t (List.mem_cons_self _ _)
  have htw : ts.takeWhile (fun x => x.priority == t.priority) = ts :=
    List.takeWhile_eq_self_iff.mpr (fun x hx => by
      have hx1 : x.priority = p := hall x (List.mem_cons_of_mem _ hx)
      simp [hx1, ht1])
  have hdw : ts.dropWhile (fun x => x.priority == t.priority) = [] :=
    List.dropWhile_eq_nil_iff.mpr (fun x hx => by
      have hx1 : x.priority = p := hall x (List.mem_cons_of_mem _ hx)
      simp [hx1, ht1])
  simp only [chunkByPriority, htw, hdw]

/-- Appending a record of a different priority (followed by anything)
to a constant-priority run closes the run as one band. -/
theorem chunkByPriority_append_flush (t : SrvRecord) (ts : List SrvRecord) (p : Int)
    (hall : ∀ x ∈ t :: ts, x.priority = p) (r : SrvRecord) (hr : r.priority ≠ p)
    (rest : List SrvRecord) :
    chunkByPriority ((t :: ts) ++ r :: rest) = (t :: ts) :: chunkByPriority (r :: rest) := by
  have ht1 : t.priority = p := hall t (List.mem_cons_self _ _)
  have hts : ∀ x ∈ ts, (fun x => x.priority == t.priority) x = true := fun x hx => by
    have hx1 : x.priority = p := hall x (List.mem_cons_of_mem _ hx)
    simp [hx1, ht1]
  have hrf : ¬((fun x => x.priority == t.priority) r = true) := by
    simp only [ht1, beq_iff_eq]
    exact hr
  have e1 : (ts ++ r :: rest).takeWhile (fun x => x.priority == t.priority) =
      ts ++ (r :: rest).takeWhile (fun x => x.priority == t.priority) :=
    List.takeWhile_append_of_pos hts
  have e2 : (r :: rest).takeWhile (fun x => x.priority == t.priority) = [] :=
    List.takeWhile_cons_of_neg hrf
  have e3 : (ts ++ r :: rest).dropWhile (fun x => x.priority == t.priority) =
      (r :: rest).dropWhile (fun x => x.priority == t.priority) :=
    List.dropWhile_append_of_pos hts
  have e4 : (r :: rest).dropWhile (fun x => x.priority == t.priority) = r :: rest :=
    List.dropWhile_cons_of_neg hrf
  simp only [List.cons_append, chunkByPriority, e1, e2, e3, e4]
  simp

/-- The bands tile the input list. -/
theorem chunkByPriority_flatten (l : List SrvRecord) :
    (chunkByPriority l).flatten = l := by
  induction l using chunkByPriority.induct with
  | case1 => simp [chunkByPriority]
  | case2 r rest ih =>
      simp only [chunkByPriority, List.flatten_cons, List.cons_append, ih]
      simp [List.takeWhile_append_dropWhile]

/-- Every band is non-empty and of constant priority. -/
theorem chunkByPriority_band_const (l : List SrvRecord) :
    ∀ b ∈ chunkByPriority l, b ≠ [] ∧ ∀ x ∈ b, ∀ y ∈ b, x.priority = y.priority := by
  induction l using chunkByPriority.induct with
  | case1 => simp [chunkByPriority]
  | case2 r rest ih =>
      intro b hb
      simp only [chunkByPriority, List.mem_cons] at hb
      rcases hb with rfl | hb
      · refine ⟨by simp, ?_⟩
        have hmem : ∀ x ∈ r :: rest.takeWhile (fun x => x.priority == r.priority),
            x.priority = r.priority := by
          intro x hx
          rcases List.mem_cons.mp hx with rfl | hx
          · rfl
          · have hxp := @List.mem_takeWhile_imp SrvRecord
              (fun x => x.priority == r.priority) rest x hx
            exact beq_iff_eq.mp hxp
        intro x hx y hy
        rw [hmem x hx, hmem y hy]
      · exact ih b hb

/-- On a priority-sorted list, the bands carry strictly ascending
priorities. -/
theorem chunkByPriority_pairwise (l : List SrvRecord)
    (hl : List.Pairwise (fun a b => a.priority ≤ b.priority) l) :
    List.Pairwise (fun b1 b2 => ∀ x ∈ b1, ∀ y ∈ b2, x.priority < y.priority)
      (chunkByPriority l) := by
  induction l using chunkByPriority.induct with
  | case1 => simp [chunkByPriority]
  | case2 r rest ih =>
      have hdsub : (rest.dropWhile (fun x => x.priority == r.priority)).Sublist rest :=
        List.dropWhile_sublist _
      have hdp : List.Pairwise (fun a b => a.priority ≤ b.priority)
          (rest.dropWhile (fun x => x.priority == r.priority)) :=
        List.Pairwise.sublist hdsub (List.pairwise_cons.mp hl).2
      simp only [chunkByPriority]
      refine List.Pairwise.cons ?_ (ih hdp)
      intro b' hb' x hx y hy
      have hx1 : x.priority = r.priority := by
        rcases List.mem_cons.mp hx with rfl | hx
        · rfl
        · have hxp := @List.mem_takeWhile_imp SrvRecord
            (fun x => x.priority == r.priority) rest x hx
          exact beq_iff_eq.mp hxp
      have hy1 : y ∈ rest.dropWhile (fun x => x.priority == r.priority) := by
        rw [← chunkByPriority_flatten (rest.dropWhile (fun x => x.priority == r.priority))]
        exact List.mem_flatten.mpr ⟨b', hb', hy⟩
      rw [hx1]
      rcases hdw : rest.dropWhile (fun x => x.priority == r.priority) with _ | ⟨h0, t0⟩
  -- the dropped suffix is empty: nothing to compare against
      · rw [hdw] at hy1; cases hy1
      · have hne := List.head_dropWhile_not (fun x => x.priority == r.priority) rest
          (by rw [hdw]; simp)
        simp only [hdw, List.head_cons] at hne
        have hne0 : h0.priority ≠ r.priority := by
          intro hcontra
          rw [hcontra] at hne
          simp at hne
        have hmem0 : h0 ∈ rest := hdsub.subset (by rw [hdw]; exact List.mem_cons_self _ _)
        have hle : r.priority ≤ h0.priority := (List.pairwise_cons.mp hl).1 h0 hmem0
        rw [hdw] at hy1
        rcases List.mem_cons.mp hy1 with rfl | hy2
        · omega
        · have hp2 : List.Pairwise (fun a b => a.priority ≤ b.priority) (h0 :: t0) := by
            rw [← hdw]; exact hdp
          have := (List.pairwise_cons.mp hp2).1 y hy2
          omega

/-- The batching `forEach` of `locateServices` computes exactly the
per-band threading of `orderResourceListByWeight` over the bands of the
list it walks (prefixed by the run accumulated so far). -/
theorem locateLoop_eq_threadBands :
    ∀ (l : List SrvRecord) (p : Int) (tp : List SrvRecord) (acc : List DomainService)
      (draws : List Int), tp ≠ [] → (∀ x ∈ tp, x.priority = p) →
      locateLoop l p tp acc draws =
        (acc ++ (threadBands (chunkByPriority (tp ++ l)) draws).1,
         (threadBands (chunkByPriority (tp ++ l)) draws).2) := by
  intro l
  induction l with
  | nil =>
      intro p tp acc draws htp hall
      rcases tp with _ | ⟨t, ts⟩
      · exact absurd rfl htp
      · rw [List.append_nil, chunkByPriority_const t ts p hall]
        simp only [locateLoop, threadBands]
        simp
  | cons r rest ih =>
      intro p tp acc draws htp hall
      by_cases hq : r.priority = p
      · simp only [locateLoop]
        rw [if_neg (fun h => h hq)]
        have hall2 : ∀ x ∈ tp ++ [r], x.priority = p := by
          intro x hx
          rcases List.mem_append.mp hx with hx | hx
          · exact hall x hx
          · rw [List.mem_singleton.mp hx]; exact hq
        rw [ih p (tp ++ [r]) acc draws (by simp) hall2, List.append_assoc]
        rfl
      · simp only [locateLoop]
        rw [if_pos hq]
        rcases tp with _ | ⟨t, ts⟩
        · exact absurd rfl htp
        · rw [ih r.priority [r] _ _ (by simp) (by intro x hx; rw [List.mem_singleton.mp hx])]
          rw [chunkByPriority_append_flush t ts p hall r hq rest]
          simp only [threadBands, List.singleton_append]
          simp [List.append_assoc]

/-- `orderRecords` (the sort-then-batch pipeline of `locateServices`)
equals threading the weighted ordering over the priority bands of the
sorted, sentinel-free record list. -/
theorem orderRecords_eq_threadBands (records : List SrvRecord) (draws : List Int) :
    orderRecords records draws =
      threadBands (chunkByPriority (sortByPriority
        (records.filter (fun r => r.target != ".")))) draws := by
  unfold orderRecords
  dsimp only
  rcases hs : sortByPriority (records.filter (fun r => r.target != ".")) with _ | ⟨r, rest⟩
  · simp [chunkByPriority, threadBands]
  · dsimp only
    rw [locateLoop_eq_threadBands rest r.priority [r] [] draws (by simp)
      (by intro x hx; rw [List.mem_singleton.mp hx])]
    simp

/-- Unfolding of one multi-record round of the `while` loop, phrased
with `weightDraw` and the selection scan. -/
theorem orderAux_cons_cons (fuel : Nat) (r1 r2 : SrvRecord) (rest : List SrvRecord)
    (draws : List Int) :
    orderResourceListByWeightAux (fuel + 1) (r1 :: r2 :: rest) draws =
      match (selectByDraw (weightDraw (r1 :: r2 :: rest) draws) 0 (r1 :: r2 :: rest)).1 with
      | some sel =>
          (toDomainService sel ::
              (orderResourceListByWeightAux fuel
                ((selectByDraw (weightDraw (r1 :: r2 :: rest) draws) 0
                  (r1 :: r2 :: rest)).2) draws.tail).1,
            (orderResourceListByWeightAux fuel
                ((selectByDraw (weightDraw (r1 :: r2 :: rest) draws) 0
                  (r1 :: r2 :: rest)).2) draws.tail).2)
      | none => ([], draws.tail) := rfl

/-- Every service emitted by the weighted ordering comes from one of
the records handed to it. -/
theorem orderAux_mem :
    ∀ (fuel : Nat) (l : List SrvRecord) (draws : List Int) (s : DomainService),
      s ∈ (orderResourceListByWeightAux fuel l draws).1 →
      ∃ r ∈ l, s = toDomainService r := by
  intro fuel
  induction fuel with
  | zero =>
      intro l draws s hs
      rcases l with _ | ⟨r1, _ | ⟨r2, rest⟩⟩
      · simp [orderResourceListByWeightAux] at hs
      · simp only [orderResourceListByWeightAux, List.mem_singleton] at hs
        exact ⟨r1, by simp, hs⟩
      · simp [orderResourceListByWeightAux] at hs
  | succ fuel ih =>
      intro l draws s hs
      rcases l with _ | ⟨r1, _ | ⟨r2, rest⟩⟩
      · simp [orderResourceListByWeightAux] at hs
      · simp only [orderResourceListByWeightAux, List.mem_singleton] at hs
        exact ⟨r1, by simp, hs⟩
      · rw [orderAux_cons_cons] at hs
        rcases hsel : (selectByDraw (weightDraw (r1 :: r2 :: rest) draws) 0
            (r1 :: r2 :: rest)).1 with _ | sel
        · rw [hsel] at hs
          simp at hs
        · rw [hsel] at hs
          dsimp only at hs
          rcases List.mem_cons.mp hs with rfl | hs2
          · exact ⟨sel, List.getElem?_mem
              ((selectByDraw_spec _ (r1 :: r2 :: rest) 0).1 ▸ hsel), rfl⟩
          · obtain ⟨r, hr, rfl⟩ := ih _ _ s hs2
            have hkept : r ∈ (r1 :: r2 :: rest) := by
              have h2 := (selectByDraw_spec (weightDraw (r1 :: r2 :: rest) draws)
                (r1 :: r2 :: rest) 0).2
              rw [h2] at hr
              exact List.eraseIdx_subset _ _ hr
            exact ⟨r, hkept, rfl⟩

/-- Every service emitted by the band threading comes from one of the
bands. -/
theorem threadBands_mem :
    ∀ (bs : List (List SrvRecord)) (draws : List Int) (s : DomainService),
      s ∈ (threadBands bs draws).1 → ∃ b ∈ bs, ∃ r ∈ b, s = toDomainService r := by
  intro bs
  induction bs with
  | nil => intro draws s hs; simp [threadBands] at hs
  | cons b bs ih =>
      intro draws s hs
      simp only [threadBands] at hs
      rcases List.mem_append.mp hs with hs | hs
      · obtain ⟨r, hr, rfl⟩ := orderAux_mem b.length b draws s hs
        exact ⟨b, List.mem_cons_self _ _, r, hr, rfl⟩
      · obtain ⟨b', hb', r, hr, rfl⟩ := ih _ s hs
        exact ⟨b', List.mem_cons_of_mem _ hb', r, hr, rfl⟩

/-- Every service in the final ordering comes from a retained
(non-sentinel) record. -/
theorem orderRecords_mem (records : List SrvRecord) (draws : List Int)
    (s : DomainService) (hs : s ∈ (orderRecords records draws).1) :
    ∃ r ∈ records.filter (fun r => r.target != "."), s = toDomainService r := by
  rw [orderRecords_eq_threadBands] at hs
  obtain ⟨b, hb, r, hr, rfl⟩ := threadBands_mem _ draws s hs
  refine ⟨r, ?_, rfl⟩
  have h1 : r ∈ (chunkByPriority (sortByPriority
      (records.filter (fun r => r.target != ".")))).flatten :=
    List.mem_flatten.mpr ⟨b, hb, hr⟩
  rw [chunkByPriority_flatten] at h1
  simp only [sortByPriority, List.mem_insertionSort] at h1
  exact h1

/-- C2: evaluated before sentinel filtering, the RFC 2782 withdrawal
rule yields `null` exactly when precisely one sentinel-target record
exists in the deserialized answer set (in particular for a sole
sentinel answer); with any other sentinel count the sentinels are
filtered out like ordinary records — a non-`null` response is returned
whose every service comes from a non-sentinel record. -/
theorem withdrawal_rule (srvRecords : List SrvRecord) (draws : List Int) (ad : Bool) :
    (processSrvRecords srvRecords draws ad = .ok none ↔
      (srvRecords.filter (fun r => r.target == ".")).length = 1)
    ∧ ((srvRecords.filter (fun r => r.target == ".")).length ≠ 1 →
        ∃ resp, processSrvRecords srvRecords draws ad = .ok (some resp) ∧
          resp.isDomainSecure = ad ∧
          ∀ s ∈ resp.services,
            ∃ r, r ∈ srvRecords ∧ r.target ≠ "." ∧ s = toDomainService r) := by
  constructor
  · constructor
    · intro h
      by_contra hne
      unfold processSrvRecords at h
      rw [if_neg hne] at h
      simp at h
    · intro h
      unfold processSrvRecords
      rw [if_pos h]
  · intro hne
    unfold processSrvRecords
    rw [if_neg hne]
    dsimp only
    refine ⟨_, rfl, rfl, ?_⟩
    intro s hs
    obtain ⟨r, hr, rfl⟩ := orderRecords_mem srvRecords draws s hs
    have hmf := List.mem_filter.mp hr
    refine ⟨r, hmf.1, ?_, rfl⟩
    simpa using hmf.2

/-- C2 witness: a sole sentinel answer is withdrawal (`null`); two
sentinel answers are filtered, leaving a non-`null` response all of
whose services come from non-sentinel records. -/
theorem withdrawal_rule_witness :
    processSrvRecords
        [{ name := "n", TTL := 0, priority := 1, weight := 0, port := 443, target := "." }]
        [] true = .ok none
    ∧ ∃ resp, processSrvRecords
        [{ name := "n", TTL := 0, priority := 1, weight := 0, port := 443, target := "." },
         { name := "n", TTL := 0, priority := 1, weight := 0, port := 443, target := "." }]
        [] true = .ok (some resp) ∧
        resp.isDomainSecure = true ∧
        ∀ s ∈ resp.services,
          ∃ r, r ∈ [{ name := "n", TTL := 0, priority := 1, weight := 0, port := 443,
                      target := "." },
                    { name := "n", TTL := 0, priority := 1, weight := 0, port := 443,
                      target := "." }] ∧ r.target ≠ "." ∧ s = toDomainService r :=
  ⟨(withdrawal_rule
      [{ name := "n", TTL := 0, priority := 1, weight := 0, port := 443, target := "." }]
      [] true).1.mpr (by decide),
   (withdrawal_rule
      [{ name := "n", TTL := 0, priority := 1, weight := 0, port := 443, target := "." },
       { name := "n", TTL := 0, priority := 1, weight := 0, port := 443, target := "." }]
      [] true).2 (by decide)⟩

/-- C3: the ordering produced by `locateServices` for a multi-priority
record set: the output equals the concatenation of the weighted
orderings of the priority bands of the sorted, sentinel-free records
(threading the draw stream band after band in ascending priority
order); the bands tile the sorted list, each band is a non-empty
constant-priority run, band priorities are strictly ascending, the
sorted list is a permutation of the retained records, and the whole
pipeline is deterministic in the response and the draw sequence. -/
theorem locateServices_priority_bands (records : List SrvRecord) (draws : List Int) :
    orderRecords records draws =
      threadBands (chunkByPriority (sortByPriority
        (records.filter (fun r => r.target != ".")))) draws
    ∧ (chunkByPriority (sortByPriority
        (records.filter (fun r => r.target != ".")))).flatten =
        sortByPriority (records.filter (fun r => r.target != "."))
    ∧ List.Pairwise (fun b1 b2 => ∀ x ∈ b1, ∀ y ∈ b2, x.priority < y.priority)
        (chunkByPriority (sortByPriority (records.filter (fun r => r.target != "."))))
    ∧ (∀ b ∈ chunkByPriority (sortByPriority (records.filter (fun r => r.target != "."))),
        b ≠ [] ∧ ∀ x ∈ b, ∀ y ∈ b, x.priority = y.priority)
    ∧ List.Perm (sortByPriority (records.filter (fun r => r.target != ".")))
        (records.filter (fun r => r.target != "."))
    ∧ ∀ draws2, draws = draws2 →
        orderRecords records draws = orderRecords records draws2 := by
  refine ⟨orderRecords_eq_threadBands records draws, chunkByPriority_flatten _, ?_,
    chunkByPriority_band_const _, List.perm_insertionSort _ _, fun _ h => by rw [h]⟩
  apply chunkByPriority_pairwise
  exact List.sorted_insertionSort (fun a b : SrvRecord => a.priority ≤ b.priority)
    (records.filter (fun r => r.target != "."))

/-- C3 witness: a concrete two-band record set with a fixed draw
stream, where the output is exactly the band-threaded ordering. -/
theorem locateServices_priority_bands_witness :
    orderRecords
        [{ name := "n", TTL := 0, priority := 20, weight := 1, port := 1, target := "c" },
         { name := "n", TTL := 0, priority := 10, weight := 3, port := 1, target := "a" },
         { name := "n", TTL := 0, priority := 10, weight := 7, port := 1, target := "b" }]
        [2] =
      threadBands (chunkByPriority (sortByPriority
        (([{ name := "n", TTL := 0, priority := 20, weight := 1, port := 1, target := "c" },
            { name := "n", TTL := 0, priority := 10, weight := 3, port := 1, target := "a" },
            { name := "n", TTL := 0, priority := 10, weight := 7, port := 1, target := "b" }] :
          List SrvRecord).filter (fun r => r.target != ".")))) [2] :=
  (locateServices_priority_bands
    [{ name := "n", TTL := 0, priority := 20, weight := 1, port := 1, target := "c" },
     { name := "n", TTL := 0, priority := 10, weight := 3, port := 1, target := "a" },
     { name := "n", TTL := 0, priority := 10, weight := 7, port := 1, target := "b" }]
    [2]).1

end BsvAlias
